import Mathlib

/-!
Verification of the ModuleX credential vault and execution dispatcher.

This file gives a shallow embedding, in Lean, of the core operations of the
repository (src/py/app): the encryption utilities (core/encryption.py), the
OAuth token-response processing (services/auth_handlers/base_oauth_handler.py),
the OAuth callback state handling (services/auth_service.py), the credential
store operations (services/auth_service.py), and the execution dispatcher
(services/tool_service.py).  Each Lean definition is translated from the named
Python function; theorems then settle the spec's claims about them.

Modelling conventions:
- Python dicts holding credential or token payloads are modelled as flat
  association lists of string keys to primitive JSON values (`JObj`).  The code
  treats payloads opaquely apart from key membership and string-valued fields,
  so nesting is irrelevant to every property proved here; json.dumps/json.loads
  round-tripping is the identity at this level.
- Fernet (authenticated symmetric encryption) is modelled symbolically: a
  ciphertext records the key it was produced under, and decryption succeeds
  exactly when presented with the same key.  This encodes the authenticated-
  encryption guarantee (wrong-key or tampered blobs fail loudly); the
  negligible-probability MAC forgery of the real scheme is idealised away.
- The relational store is a pair of lists (users, auth records);
  `scalar_one_or_none` on the source's filtered SELECTs is modelled as
  `List.find?` with the same filter.  SQLAlchemy's in-place row mutation is
  modelled by rewriting the first matching list entry.
- Timestamps, logging and the HTML helpers are irrelevant to every claim and
  are omitted.
- asyncio interleaving is modelled, where a claim needs it, by splitting a
  coroutine at its `await` points into explicit steps and running an explicit
  schedule over the shared store.
-/

namespace Modulex

/-- Primitive JSON value (the payload fields the code ever inspects). -/
inductive JVal where
  | str : String → JVal
  | num : Int → JVal
  | bool : Bool → JVal
  | null : JVal
deriving DecidableEq, Repr

/-- A JSON object: what a Python credential/token dict is modelled as. -/
abbrev JObj := List (String × JVal)

/-- Python `k in d` on a dict. -/
def hasKey (d : JObj) (k : String) : Bool := d.any (fun kv => kv.1 == k)

/-- Python `d.get(k)` on a dict (None when absent). -/
def jget (d : JObj) (k : String) : Option JVal :=
  (d.find? (fun kv => kv.1 == k)).map (fun kv => kv.2)

/-- Python `str()` of a primitive JSON value (used only inside error
messages built with f-strings). -/
def pyStr : JVal → String
  | .str s => s
  | .num n => toString n
  | .bool true => "True"
  | .bool false => "False"
  | .null => "None"

/-- Python `str(d.get(k))`, i.e. "None" when the key is absent. -/
def pyStrGet (d : JObj) (k : String) : String :=
  match jget d k with
  | some v => pyStr v
  | none => "None"

/-- Python `d.get(k, default)` rendered with `str()`. -/
def pyStrGetD (d : JObj) (k : String) (default : String) : String :=
  match jget d k with
  | some v => pyStr v
  | none => default

/-! ## Encryption provider (src/py/app/core/encryption.py)

`_generate_key` derives the Fernet key by PBKDF2 over the password string
`f"{encryption_key}:{str(user_id)}"`.  Since PBKDF2 is a fixed deterministic
function, distinct password strings are modelled as distinct keys and the
password string itself stands for the derived key. -/

/-- `_generate_key(user_id)`: the key-derivation input
`encryption_key ++ ":" ++ user_id` (PBKDF2 modelled as injective, so the
password string stands for the derived key). -/
def generate_key (encryptionKey userId : String) : String :=
  encryptionKey ++ ":" ++ userId

/-- A Fernet ciphertext, symbolically: it records the key it was produced
under and the enclosed plaintext; the MAC makes decryption under any other
key fail. -/
structure FernetBlob where
  key : String
  data : JObj
deriving DecidableEq, Repr

/-- `Fernet(key).encrypt(json.dumps(credentials))`. -/
def fernetEncrypt (key : String) (data : JObj) : FernetBlob := ⟨key, data⟩

/-- `Fernet(key).decrypt(blob)`: authenticated — succeeds exactly under the
encrypting key, raises (`none`) otherwise. -/
def fernetDecrypt (key : String) (blob : FernetBlob) : Option JObj :=
  if blob.key = key then some blob.data else none

/-- `encrypt_credentials(user_id, credentials)`. -/
def encrypt_credentials (encryptionKey userId : String) (credentials : JObj) :
    FernetBlob :=
  fernetEncrypt (generate_key encryptionKey userId) credentials

/-- `decrypt_credentials(user_id, encrypted_data)`; `none` models the raised
`InvalidToken` on a wrong-key or corrupted blob. -/
def decrypt_credentials (encryptionKey userId : String) (blob : FernetBlob) :
    Option JObj :=
  fernetDecrypt (generate_key encryptionKey userId) blob

/-! ## OAuth token-response processing
(src/py/app/services/auth_handlers/base_oauth_handler.py,
`BaseOAuthHandler.process_token_response`) -/

/-- The f-string
`f"OAuth error: {token_data.get('error')} - {token_data.get('error_description', 'No description')}"`. -/
def oauthErrorMsg (tokenData : JObj) : String :=
  "OAuth error: " ++ pyStrGet tokenData "error" ++ " - " ++
    pyStrGetD tokenData "error_description" "No description"

/-- `process_token_response` applied to the parsed JSON body of a 2xx token
response: raises (`Except.error`) on an "error" key or a missing
"access_token" key, otherwise returns the payload unchanged. -/
def process_token_response (tokenData : JObj) : Except String JObj :=
  if hasKey tokenData "error" then
    .error (oauthErrorMsg tokenData)
  else if !(hasKey tokenData "access_token") then
    .error "No access_token received from OAuth provider"
  else
    .ok tokenData

/-! ## Relational store (src/py/app/models/user.py) -/

/-- A row of the `users` table (the columns the core reads). -/
structure UserRow where
  id : String
  externalId : String
deriving DecidableEq, Repr

/-- A row of the `user_tool_auths` table (the columns the core reads). -/
structure AuthRow where
  userId : String
  toolName : String
  encryptedCredentials : FernetBlob
  isAuthenticated : Bool
  isActive : Bool
  disabledActions : List String
deriving DecidableEq, Repr

/-- The relational store. -/
structure Db where
  users : List UserRow
  auths : List AuthRow
deriving DecidableEq, Repr

/-- Rewrite the first entry satisfying `p` (SQLAlchemy's in-place mutation of
the single row returned by `scalar_one_or_none`). -/
def updateFirst (p : α → Bool) (f : α → α) : List α → List α
  | [] => []
  | x :: xs => if p x then f x :: xs else x :: updateFirst p f xs

/-- Delete the first entry satisfying `p` (`db.delete(auth_record)`). -/
def removeFirst (p : α → Bool) : List α → List α
  | [] => []
  | x :: xs => if p x then xs else x :: removeFirst p xs

/-- Server-generated fresh internal id (`uuid.uuid4` modelled as a counter on
the table size; only freshness, not the value, matters to any claim). -/
def freshUserId (db : Db) : String := "uid-" ++ toString db.users.length

/-- `AuthService.get_or_create_user`: SELECT by external id; INSERT a new row
when absent. -/
def get_or_create_user (db : Db) (externalId : String) : UserRow × Db :=
  match db.users.find? (fun u => u.externalId == externalId) with
  | some u => (u, db)
  | none =>
      let u : UserRow := ⟨freshUserId db, externalId⟩
      (u, { db with users := db.users ++ [u] })

/-! ## Credential store operations (src/py/app/services/auth_service.py) -/

/-- The WHERE clause of `get_user_credentials`'s SELECT: user id, tool name,
`is_authenticated == True`, `is_active == True`. -/
def activeAuthFilter (internalUserId toolName : String) (r : AuthRow) : Bool :=
  r.userId == internalUserId && r.toolName == toolName &&
    r.isAuthenticated && r.isActive

/-- The WHERE clause used by `set_tool_active_status` and
`set_action_disabled_status`: user id, tool name, `is_authenticated == True`. -/
def authedAuthFilter (internalUserId toolName : String) (r : AuthRow) : Bool :=
  r.userId == internalUserId && r.toolName == toolName && r.isAuthenticated

/-- The WHERE clause used by `disconnect_tool` and
`cleanup_invalid_credentials`: user id and tool name only. -/
def anyAuthFilter (internalUserId toolName : String) (r : AuthRow) : Bool :=
  r.userId == internalUserId && r.toolName == toolName

/-- `AuthService.get_user_credentials`: get-or-create the user, SELECT the
authenticated-and-active record, decrypt; `None` on a missing record and on a
decryption failure (the source catches the exception). -/
def get_user_credentials (encryptionKey : String) (db : Db)
    (userId toolName : String) : Option JObj × Db :=
  let ud := get_or_create_user db userId
  match ud.2.auths.find? (activeAuthFilter ud.1.id toolName) with
  | none => (none, ud.2)
  | some r =>
      match decrypt_credentials encryptionKey ud.1.id r.encryptedCredentials with
      | some creds => (some creds, ud.2)
      | none => (none, ud.2)

/-- One entry of `AuthService.get_user_tools`'s result (the fields a claim
mentions; timestamps omitted). -/
structure ToolSummary where
  toolName : String
  isActive : Bool
  disabledActions : List String
deriving DecidableEq, Repr

/-- `AuthService.get_user_tools`: get-or-create the user, list summaries of
the user's authenticated records. -/
def get_user_tools (db : Db) (userId : String) : List ToolSummary × Db :=
  let ud := get_or_create_user db userId
  (ud.2.auths.filter (fun r => r.userId == ud.1.id && r.isAuthenticated)
      |>.map (fun r => ⟨r.toolName, r.isActive, r.disabledActions⟩),
   ud.2)

/-- `AuthService.set_tool_active_status`: get-or-create the user, mutate the
authenticated record's `is_active` in place; `false` if no record matches. -/
def set_tool_active_status (db : Db) (userId toolName : String)
    (isActive : Bool) : Bool × Db :=
  let ud := get_or_create_user db userId
  match ud.2.auths.find? (authedAuthFilter ud.1.id toolName) with
  | none => (false, ud.2)
  | some _ =>
      (true,
       { ud.2 with
           auths := updateFirst (authedAuthFilter ud.1.id toolName)
             (fun r => { r with isActive := isActive }) ud.2.auths })

/-- `AuthService.set_action_disabled_status`: get-or-create the user, on the
authenticated record append the action to `disabled_actions` if absent
(disable) or remove its first occurrence (enable); `false` if no record. -/
def set_action_disabled_status (db : Db) (userId toolName actionName : String)
    (isDisabled : Bool) : Bool × Db :=
  let ud := get_or_create_user db userId
  match ud.2.auths.find? (authedAuthFilter ud.1.id toolName) with
  | none => (false, ud.2)
  | some _ =>
      let upd : AuthRow → AuthRow := fun r =>
        if isDisabled then
          if actionName ∈ r.disabledActions then r
          else { r with disabledActions := r.disabledActions ++ [actionName] }
        else
          { r with disabledActions := r.disabledActions.erase actionName }
      (true,
       { ud.2 with
           auths := updateFirst (authedAuthFilter ud.1.id toolName) upd
             ud.2.auths })

/-- `AuthService.disconnect_tool`: get-or-create the user, hard-delete the
record; `false` if no record. -/
def disconnect_tool (db : Db) (userId toolName : String) : Bool × Db :=
  let ud := get_or_create_user db userId
  match ud.2.auths.find? (anyAuthFilter ud.1.id toolName) with
  | none => (false, ud.2)
  | some _ =>
      (true,
       { ud.2 with
           auths := removeFirst (anyAuthFilter ud.1.id toolName) ud.2.auths })

/-- `AuthService.cleanup_invalid_credentials`: get-or-create the user, SELECT
the record with no flag filter; if the blob decrypts to a payload with an
"error" key and no "access_token" key, flip `is_authenticated` to `False` in
place and return `true`; on a missing record, a decryption failure (caught
exception) or any other payload shape, return `false` with no change. -/
def cleanup_invalid_credentials (encryptionKey : String) (db : Db)
    (userId toolName : String) : Bool × Db :=
  let ud := get_or_create_user db userId
  match ud.2.auths.find? (anyAuthFilter ud.1.id toolName) with
  | none => (false, ud.2)
  | some r =>
      match decrypt_credentials encryptionKey ud.1.id r.encryptedCredentials with
      | none => (false, ud.2)
      | some creds =>
          if hasKey creds "error" && !(hasKey creds "access_token") then
            (true,
             { ud.2 with
                 auths := updateFirst (anyAuthFilter ud.1.id toolName)
                   (fun a => { a with isAuthenticated := false }) ud.2.auths })
          else (false, ud.2)

/-! ## Execution dispatcher (src/py/app/services/tool_service.py)

`ToolService.execute_tool` is embedded as a function of the dispatcher
counters, the store, and the outcome of the child process (the child's
behaviour is an input, since it is an external program).  The embedding
follows the source's control flow statement by statement; the shared-counter
interference of concurrent calls is captured by the pre-state counter values
(any other call's outstanding increment is visible there). -/

/-- The fields of `LoadConfig` the dispatcher reads
(src/py/app/config/load_config.py; the float timeout is modelled as a Nat,
only its rendering in the timeout message depends on it). -/
structure LoadConfig where
  maxQueueSize : Nat
  requestTimeout : Nat
deriving DecidableEq, Repr

/-- The dispatcher's shared counters `_queued_executions` and
`_active_executions`. -/
structure DispatcherState where
  queued : Nat
  active : Nat
deriving DecidableEq, Repr

/-- Outcome of the awaited child process (steps 101-112 of the source):
clean exit with JSON stdout, clean exit with non-JSON stdout, non-zero exit,
`asyncio.TimeoutError` from `wait_for`, or any other exception raised inside
the semaphore block. -/
inductive ChildOutcome where
  | exitsOkJson (output : JObj)
  | exitsOkRaw (stdout : String)
  | exitsNonzero (stderrText stdoutText : String)
  | timesOut
  | raises (msg : String)
deriving DecidableEq, Repr

/-- The result dict `execute_tool` returns (either a `result` or an `error`
field is set, plus the echoed tool and action names). -/
structure ExecResult where
  success : Bool
  result : Option JObj
  resultText : Option String
  error : Option String
  toolName : String
  action : String
deriving DecidableEq, Repr

/-- Observable side effects of one `execute_tool` call: whether a child
process was spawned, whether any kill/terminate signal was ever sent to it,
and whether `cleanup_invalid_credentials` was invoked. -/
structure ExecEffects where
  spawnedChild : Bool
  killedChild : Bool
  cleanupCalled : Bool
deriving DecidableEq, Repr

deriving instance DecidableEq for Except

/-- Everything one `execute_tool` call produces: the returned dict (or the
`ValueError` it raises, as `Except.error`), the post-call counters, the
post-call store, and the effect record. -/
structure ExecOutcome where
  result : Except String ExecResult
  state : DispatcherState
  db : Db
  effects : ExecEffects
deriving DecidableEq, Repr

/-- The source's outer `finally` (lines 156-159): decrement
`_queued_executions` only when it is positive. -/
def outerFinallyDec (st : DispatcherState) : DispatcherState :=
  if 0 < st.queued then { st with queued := st.queued - 1 } else st

/-- The Overload message
`f"Server busy. Queue limit ({max_queue_size}) exceeded. Please try again later."`. -/
def busyMsg (cfg : LoadConfig) : String :=
  "Server busy. Queue limit (" ++ toString cfg.maxQueueSize ++
    ") exceeded. Please try again later."

/-- The timeout message
`f"Tool execution timed out after {request_timeout}s"`. -/
def timeoutMsg (cfg : LoadConfig) : String :=
  "Tool execution timed out after " ++ toString cfg.requestTimeout ++ "s"

/-- `ToolService.execute_tool`.  Arguments beyond the source's own: `cfg` (the
loaded config), `st` (pre-call counters, any other call's outstanding
increments included), `db` (the store), `scriptExists`
(`tool_script_path.exists()`), and `child` (what the spawned process does).
The body mirrors the source's statements in order:
busy fast-path; `queued += 1`; credential resolution with the two
`cleanup_invalid_credentials`/`ValueError` early exits; script check; then,
under the semaphore, `queued -= 1; active += 1`, the child invocation with
its five outcomes, the inner `finally` (`active -= 1`), and the outer
`finally` (guarded `queued -= 1`).  No code path sends a kill signal to the
child — on `asyncio.TimeoutError`, `wait_for` cancels the `communicate()`
await and the handler only builds the error dict — so `killedChild` is
`false` on every path that spawns one. -/
def execute_tool (encryptionKey : String) (cfg : LoadConfig)
    (st : DispatcherState) (db : Db) (userId toolName action : String)
    (scriptExists : Bool) (child : ChildOutcome) : ExecOutcome :=
  if cfg.maxQueueSize ≤ st.queued then
    { result := .ok
        { success := false, result := none, resultText := none,
          error := some (busyMsg cfg), toolName := toolName, action := action },
      state := st, db := db,
      effects := { spawnedChild := false, killedChild := false,
                   cleanupCalled := false } }
  else
    let st := { st with queued := st.queued + 1 }
    let cd := get_user_credentials encryptionKey db userId toolName
    match cd.1 with
    | none =>
        let cl := cleanup_invalid_credentials encryptionKey cd.2 userId toolName
        { result := .error ("User " ++ userId ++ " not authenticated for " ++
            toolName ++ ". Please complete authentication."),
          state := outerFinallyDec st, db := cl.2,
          effects := { spawnedChild := false, killedChild := false,
                       cleanupCalled := true } }
    | some credentials =>
        if hasKey credentials "error" && !(hasKey credentials "access_token") then
          let cl := cleanup_invalid_credentials encryptionKey cd.2 userId toolName
          { result := .error ("Invalid authentication for " ++ toolName ++
              ". Please re-authenticate."),
            state := outerFinallyDec st, db := cl.2,
            effects := { spawnedChild := false, killedChild := false,
                         cleanupCalled := true } }
        else if !scriptExists then
          { result := .error ("Tool script not found: integrations/" ++
              toolName ++ "/main.py"),
            state := outerFinallyDec st, db := cd.2,
            effects := { spawnedChild := false, killedChild := false,
                         cleanupCalled := false } }
        else
          let st := { st with queued := st.queued - 1, active := st.active + 1 }
          let res : ExecResult :=
            match child with
            | .exitsOkJson output =>
                { success := true, result := some output, resultText := none,
                  error := none, toolName := toolName, action := action }
            | .exitsOkRaw stdoutText =>
                { success := true, result := none, resultText := some stdoutText,
                  error := none, toolName := toolName, action := action }
            | .exitsNonzero stderrText stdoutText =>
                { success := false, result := none, resultText := none,
                  error := some (if stderrText == "" then stdoutText
                                 else stderrText),
                  toolName := toolName, action := action }
            | .timesOut =>
                { success := false, result := none, resultText := none,
                  error := some (timeoutMsg cfg),
                  toolName := toolName, action := action }
            | .raises msg =>
                { success := false, result := none, resultText := none,
                  error := some msg, toolName := toolName, action := action }
          let st := { st with active := st.active - 1 }
          { result := .ok res, state := outerFinallyDec st, db := cd.2,
            effects := { spawnedChild := true, killedChild := false,
                         cleanupCalled := false } }

/-- The per-tool action-name filter of the `openai-tools` listing
(src/py/app/api/tools.py lines 168-177): actions in `disabled_actions` are
skipped. -/
def openaiActionNames (disabledActions : List String)
    (actionNames : List String) : List String :=
  actionNames.filter (fun a => !(disabledActions.contains a))

/-! ## OAuth callback race (src/py/app/services/auth_service.py,
`AuthService.handle_callback`)

The coroutine is split at its await points on the shared Redis store: step 1
is `redis.get` followed by the synchronous JSON parse and tool-name check;
step 2 covers the awaited token exchange and credential save and ends with
`redis.delete` and `return True`.  Two concurrent callbacks on the same state
token are run under an explicit schedule. -/

/-- The state payload stored under `oauth_state:{state}`. -/
structure OAuthStateData where
  userId : String
  toolName : String
deriving DecidableEq, Repr

/-- Where one `handle_callback` coroutine stands. -/
inductive CbPhase where
  | start
  | validated (d : OAuthStateData)
  | succeeded
  | failedInvalidState
  | failedMismatch
deriving DecidableEq, Repr

/-- One scheduling step of a `handle_callback` coroutine over the shared
store entry for the token.  From `start`: `redis.get` — absent raises
`ValueError("Invalid state")`, a tool-name mismatch raises
`ValueError("Tool name mismatch")`, otherwise proceed holding the parsed
data.  From `validated`: the exchange and save complete, `redis.delete`
removes the entry, and the call returns `True`. -/
def cbStep (toolName : String) (store : Option OAuthStateData)
    (pc : CbPhase) : Option OAuthStateData × CbPhase :=
  match pc with
  | .start =>
      match store with
      | none => (store, .failedInvalidState)
      | some d =>
          if d.toolName == toolName then (store, .validated d)
          else (store, .failedMismatch)
  | .validated _ => (none, .succeeded)
  | pc => (store, pc)

/-- Two concurrent callbacks on the same state token plus the shared store
entry. -/
structure RaceState where
  store : Option OAuthStateData
  p1 : CbPhase
  p2 : CbPhase
deriving DecidableEq, Repr

/-- Run a schedule: `true` steps the first callback, `false` the second. -/
def runRace (toolName : String) : List Bool → RaceState → RaceState
  | [], g => g
  | pick :: rest, g =>
      if pick then
        let s := cbStep toolName g.store g.p1
        runRace toolName rest { g with store := s.1, p1 := s.2 }
      else
        let s := cbStep toolName g.store g.p2
        runRace toolName rest { g with store := s.1, p2 := s.2 }

/-- The schema's uniqueness intent for `user_tool_auths`: no two rows share
the (user id, tool name) key (required for `scalar_one_or_none` not to
raise). -/
abbrev NoDupKeys (l : List AuthRow) : Prop :=
  l.Pairwise (fun r1 r2 => ¬(r1.userId = r2.userId ∧ r1.toolName = r2.toolName))

/-- A sample store used to evaluate the dispatcher at concrete inputs: user
"alice" with internal id "u1", holding a valid active GitHub credential whose
payload is an access token, with the "delete_repo" action disabled via
`set_action_disabled_status`. -/
def sampleCreds : JObj := [("access_token", JVal.str "tok")]

/-- The sample store before disabling any action. -/
def sampleDbBase : Db :=
  { users := [⟨"u1", "alice"⟩],
    auths := [⟨"u1", "github", encrypt_credentials "srv" "u1" sampleCreds,
               true, true, []⟩] }

/-- The sample store with "delete_repo" disabled for alice's GitHub tool. -/
def sampleDb : Db :=
  (set_action_disabled_status sampleDbBase "alice" "github" "delete_repo" true).2

/-- A persisted OAuth error envelope: an "error" key and no "access_token"
(the scenario of §8 of the spec). -/
def badCreds : JObj := [("error", JVal.str "bad_verification_code")]

/-- A store holding a persisted error envelope as alice's GitHub
credential. -/
def badDb : Db :=
  { users := [⟨"u1", "alice"⟩],
    auths := [⟨"u1", "github", encrypt_credentials "srv" "u1" badCreds,
               true, true, []⟩] }

/-! ## Theorems -/

theorem string_append_cancel_left (a b c : String) (h : a ++ b = a ++ c) :
    b = c := by
  have hd : (a ++ b).data = (a ++ c).data := by rw [h]
  simp [String.data_append] at hd
  cases b; cases c; simp_all

theorem generate_key_injective (encryptionKey s s' : String)
    (h : generate_key encryptionKey s = generate_key encryptionKey s') :
    s = s' := by
  unfold generate_key at h
  exact string_append_cancel_left _ _ _ h

/-- C8: for all credential payloads P and subjects S,
`decrypt(S, encrypt(S, P)) = P`, and decrypting `encrypt(S, P)` under any
other subject S' ≠ S fails loudly (the authenticated ciphertext rejects the
wrong derived key) rather than returning data. -/
theorem encrypt_decrypt_roundtrip_wrong_subject_fails
    (encryptionKey s s' : String) (p : JObj) (h : s' ≠ s) :
    decrypt_credentials encryptionKey s (encrypt_credentials encryptionKey s p)
      = some p ∧
    decrypt_credentials encryptionKey s' (encrypt_credentials encryptionKey s p)
      = none := by
  constructor
  · simp [decrypt_credentials, encrypt_credentials, fernetEncrypt, fernetDecrypt]
  · simp only [decrypt_credentials, encrypt_credentials, fernetEncrypt,
      fernetDecrypt]
    rw [if_neg]
    intro hk
    exact h (generate_key_injective encryptionKey s s' hk).symm

/-- Witness for C8 at subject "u1", wrong subject "u2", a one-field token
payload. -/
theorem encrypt_decrypt_roundtrip_wrong_subject_fails_witness :
    decrypt_credentials "srv" "u1"
        (encrypt_credentials "srv" "u1" [("access_token", JVal.str "tok")])
      = some [("access_token", JVal.str "tok")] ∧
    decrypt_credentials "srv" "u2"
        (encrypt_credentials "srv" "u1" [("access_token", JVal.str "tok")])
      = none :=
  encrypt_decrypt_roundtrip_wrong_subject_fails "srv" "u1" "u2"
    [("access_token", JVal.str "tok")] (by decide)

/-- C5: `process_token_response` fails on a payload carrying an "error" key
(with a message built from the provider's error and error_description),
fails on a payload lacking "access_token" even absent an error key, and
otherwise returns the payload unchanged. -/
theorem process_token_response_spec (d : JObj) :
    (hasKey d "error" = true →
      process_token_response d = .error (oauthErrorMsg d)) ∧
    (hasKey d "error" = false → hasKey d "access_token" = false →
      process_token_response d =
        .error "No access_token received from OAuth provider") ∧
    (∀ p, process_token_response d = .ok p ↔
      p = d ∧ hasKey d "error" = false ∧ hasKey d "access_token" = true) := by
  refine ⟨fun he => ?_, fun he ha => ?_, fun p => ?_⟩
  · simp [process_token_response, he]
  · simp [process_token_response, he, ha]
  · unfold process_token_response
    rcases he : hasKey d "error" <;> rcases ha : hasKey d "access_token" <;>
      simp [he, ha, eq_comm]

/-- Witness for C5: an error payload is rejected with the provider's error
and description, and a well-formed payload passes through unchanged. -/
theorem process_token_response_spec_witness :
    process_token_response
        [("error", JVal.str "bad_verification_code"),
         ("error_description", JVal.str "expired")] =
      .error "OAuth error: bad_verification_code - expired" ∧
    process_token_response [("access_token", JVal.str "tok")] =
      .ok [("access_token", JVal.str "tok")] := by
  constructor
  · have h := (process_token_response_spec
      [("error", JVal.str "bad_verification_code"),
       ("error_description", JVal.str "expired")]).1 (by decide)
    rw [h]
    rfl
  · exact ((process_token_response_spec [("access_token", JVal.str "tok")]).2.2
      _).mpr ⟨rfl, by decide, by decide⟩

/-- C1 (code divergence): `handle_callback` is not an atomic consume — its
`redis.get` and `redis.delete` are separate awaited commands with the token
exchange between them, despite the source's own comment "Get and delete
state atomically (single operation)".  Two concurrent callbacks on the same
valid state token, scheduled get/get/delete/delete, BOTH return success;
a second consume after the first has fully completed does fail. -/
theorem handle_callback_race_both_succeed :
    runRace "github" [true, false, true, false]
        { store := some ⟨"usr1", "github"⟩, p1 := .start, p2 := .start } =
      { store := none, p1 := .succeeded, p2 := .succeeded } ∧
    runRace "github" [true, true, false]
        { store := some ⟨"usr1", "github"⟩, p1 := .start, p2 := .start } =
      { store := none, p1 := .succeeded, p2 := .failedInvalidState } := by
  constructor <;> rfl

/-- C4: a call arriving with queued-count at or above the configured queue
limit returns the structured busy result at once — success=false, the error
naming the limit, no exception — leaving counters, store, and effects
untouched. -/
theorem execute_tool_overload_fast_path (encryptionKey : String)
    (cfg : LoadConfig) (st : DispatcherState) (db : Db)
    (userId toolName action : String) (scriptExists : Bool)
    (child : ChildOutcome) (h : cfg.maxQueueSize ≤ st.queued) :
    execute_tool encryptionKey cfg st db userId toolName action scriptExists
        child =
      { result := .ok
          { success := false, result := none, resultText := none,
            error := some (busyMsg cfg), toolName := toolName,
            action := action },
        state := st, db := db,
        effects := { spawnedChild := false, killedChild := false,
                     cleanupCalled := false } } := by
  simp [execute_tool, h]

/-- Witness for C4: queue limit 1 already reached; the second call is shed. -/
theorem execute_tool_overload_fast_path_witness :
    execute_tool "srv" ⟨1, 30⟩ ⟨1, 0⟩ sampleDb "alice" "github" "list_repos"
        true (.exitsOkJson []) =
      { result := .ok
          { success := false, result := none, resultText := none,
            error := some "Server busy. Queue limit (1) exceeded. Please try again later.",
            toolName := "github", action := "list_repos" },
        state := ⟨1, 0⟩, db := sampleDb,
        effects := { spawnedChild := false, killedChild := false,
                     cleanupCalled := false } } := by
  have h := execute_tool_overload_fast_path "srv" ⟨1, 30⟩ ⟨1, 0⟩ sampleDb
    "alice" "github" "list_repos" true (.exitsOkJson []) (by decide)
  rw [h]
  rfl

/-- C2 (code divergence): a successful call that starts while one other
call's queued-count increment is outstanding (pre-call queued-count 1)
decrements the shared counter twice — once on semaphore acquisition and once
more in the outer `finally`, whose `> 0` guard sees the other call's
increment — ending at 0 where the claim requires the pre-call value 1. -/
theorem execute_tool_queued_double_decrement :
    (execute_tool "srv" ⟨10, 30⟩ ⟨1, 0⟩ sampleDb "alice" "github" "list_repos"
        true (.exitsOkJson [("ok", JVal.bool true)])).state = ⟨0, 0⟩ ∧
    (execute_tool "srv" ⟨10, 30⟩ ⟨1, 0⟩ sampleDb "alice" "github" "list_repos"
        true (.exitsOkJson [("ok", JVal.bool true)])).result =
      .ok { success := true, result := some [("ok", JVal.bool true)],
            resultText := none, error := none, toolName := "github",
            action := "list_repos" } := by
  constructor <;> rfl

/-- C3 (code divergence): a call whose child exceeds the timeout returns the
structured failure naming the configured timeout and the active-count
returns to its pre-call value, but no kill or terminate signal is ever sent
to the spawned child — `asyncio.wait_for` only cancels the `communicate()`
await, abandoning the process. -/
theorem execute_tool_timeout_no_kill :
    (execute_tool "srv" ⟨10, 30⟩ ⟨0, 0⟩ sampleDb "alice" "github" "list_repos"
        true .timesOut).result =
      .ok { success := false, result := none, resultText := none,
            error := some "Tool execution timed out after 30s",
            toolName := "github", action := "list_repos" } ∧
    (execute_tool "srv" ⟨10, 30⟩ ⟨0, 0⟩ sampleDb "alice" "github" "list_repos"
        true .timesOut).state = ⟨0, 0⟩ ∧
    (execute_tool "srv" ⟨10, 30⟩ ⟨0, 0⟩ sampleDb "alice" "github" "list_repos"
        true .timesOut).effects =
      { spawnedChild := true, killedChild := false, cleanupCalled := false } := by
  refine ⟨?_, ?_, ?_⟩ <;> rfl

theorem goc_auths (db : Db) (uid : String) :
    ((get_or_create_user db uid).2).auths = db.auths := by
  unfold get_or_create_user
  rcases h : db.users.find? (fun u => u.externalId == uid) with _ | u <;>
    simp [h]

theorem goc_of_found (db : Db) (uid : String) (u : UserRow)
    (h : db.users.find? (fun x => x.externalId == uid) = some u) :
    get_or_create_user db uid = (u, db) := by
  unfold get_or_create_user
  rw [h]

theorem activeAuthFilter_true_iff (uid tool : String) (r : AuthRow) :
    activeAuthFilter uid tool r = true ↔
      r.userId = uid ∧ r.toolName = tool ∧ r.isAuthenticated = true ∧
        r.isActive = true := by
  simp [activeAuthFilter, and_assoc]

theorem anyAuthFilter_true_iff (uid tool : String) (r : AuthRow) :
    anyAuthFilter uid tool r = true ↔ r.userId = uid ∧ r.toolName = tool := by
  simp [anyAuthFilter]

theorem active_imp_any (uid tool : String) (r : AuthRow)
    (h : activeAuthFilter uid tool r = true) :
    anyAuthFilter uid tool r = true := by
  rcases (activeAuthFilter_true_iff uid tool r).mp h with ⟨h1, h2, -, -⟩
  exact (anyAuthFilter_true_iff uid tool r).mpr ⟨h1, h2⟩

theorem find?_active_of_mem (uid tool : String) (l : List AuthRow)
    (hnd : NoDupKeys l) (r : AuthRow) (hr : r ∈ l)
    (hp : activeAuthFilter uid tool r = true) :
    l.find? (activeAuthFilter uid tool) = some r := by
  induction l with
  | nil => cases hr
  | cons x xs ih =>
      rcases List.pairwise_cons.mp hnd with ⟨hx, hxs⟩
      rcases List.mem_cons.mp hr with hr | hr
      · subst hr
        simp [List.find?, hp]
      · rcases hpx : activeAuthFilter uid tool x with _ | _
        · simp [List.find?, hpx, ih hxs hr]
        · exfalso
          rcases (activeAuthFilter_true_iff uid tool x).mp hpx with
            ⟨hx1, hx2, -, -⟩
          rcases (activeAuthFilter_true_iff uid tool r).mp hp with
            ⟨hr1, hr2, -, -⟩
          exact hx r hr ⟨hx1.trans hr1.symm, hx2.trans hr2.symm⟩

theorem find?_updateFirst_pres (p : α → Bool) (f : α → α) (l : List α)
    (hpf : ∀ a, p (f a) = p a) :
    (updateFirst p f l).find? p = (l.find? p).map f := by
  induction l with
  | nil => rfl
  | cons x xs ih =>
      rcases hx : p x with _ | _
      · simp [updateFirst, hx, List.find?, ih]
      · simp [updateFirst, hx, List.find?, hpf x]

theorem find?_active_after_flip (uid tool : String) (l : List AuthRow)
    (hnd : NoDupKeys l) :
    (updateFirst (anyAuthFilter uid tool)
        (fun a => { a with isAuthenticated := false }) l).find?
      (activeAuthFilter uid tool) = none := by
  induction l with
  | nil => rfl
  | cons x xs ih =>
      rcases List.pairwise_cons.mp hnd with ⟨hx, hxs⟩
      rcases hpx : anyAuthFilter uid tool x with _ | _
      · have hax : activeAuthFilter uid tool x = false := by
          rcases hax : activeAuthFilter uid tool x with _ | _
          · rfl
          · exact absurd (active_imp_any uid tool x hax) (by simp [hpx])
        simp [updateFirst, hpx, List.find?, hax, ih hxs]
      · have hflip : activeAuthFilter uid tool
            { x with isAuthenticated := false } = false := by
          simp [activeAuthFilter]
        have hrest : xs.find? (activeAuthFilter uid tool) = none := by
          rw [List.find?_eq_none]
          intro y hy hay
          rcases (anyAuthFilter_true_iff uid tool x).mp hpx with ⟨hx1, hx2⟩
          rcases (activeAuthFilter_true_iff uid tool y).mp hay with
            ⟨hy1, hy2, -, -⟩
          exact hx y hy ⟨hx1.trans hy1.symm, hx2.trans hy2.symm⟩
        simp [updateFirst, hpx, List.find?, hflip, hrest]

/-- C6: under the schema's (user, tool) uniqueness, `get_user_credentials`
returns a decrypted payload exactly when a record for the pair exists with
`is_authenticated` and `is_active` both true and its blob decrypts under the
user's key; every other case — no record, either flag false, or a
decryption failure — yields `None` (the source catches the decryption
exception, so nothing is raised to the caller). -/
theorem get_user_credentials_spec (encryptionKey : String) (db : Db)
    (uid tool : String) (hnd : NoDupKeys db.auths) (p : JObj) :
    (get_user_credentials encryptionKey db uid tool).1 = some p ↔
      ∃ r ∈ db.auths,
        r.userId = (get_or_create_user db uid).1.id ∧ r.toolName = tool ∧
        r.isAuthenticated = true ∧ r.isActive = true ∧
        decrypt_credentials encryptionKey (get_or_create_user db uid).1.id
          r.encryptedCredentials = some p := by
  unfold get_user_credentials
  dsimp only
  rw [goc_auths]
  constructor
  · intro hres
    rcases hfind : db.auths.find?
        (activeAuthFilter (get_or_create_user db uid).1.id tool) with _ | r
    · rw [hfind] at hres
      simp at hres
    · rw [hfind] at hres
      dsimp only at hres
      rcases hdec : decrypt_credentials encryptionKey
          (get_or_create_user db uid).1.id r.encryptedCredentials with _ | c
      · rw [hdec] at hres
        simp at hres
      · rw [hdec] at hres
        simp at hres
        subst hres
        have hmem := List.mem_of_find?_eq_some hfind
        have hp := List.find?_some hfind
        rcases (activeAuthFilter_true_iff _ _ _).mp hp with ⟨h1, h2, h3, h4⟩
        exact ⟨r, hmem, h1, h2, h3, h4, hdec⟩
  · rintro ⟨r, hmem, h1, h2, h3, h4, hdec⟩
    have hfind := find?_active_of_mem (get_or_create_user db uid).1.id tool
      db.auths hnd r hmem
      ((activeAuthFilter_true_iff _ _ _).mpr ⟨h1, h2, h3, h4⟩)
    rw [hfind]
    dsimp only
    rw [hdec]

/-- Witness for C6: the sample store yields alice's decrypted GitHub token. -/
theorem get_user_credentials_spec_witness :
    (get_user_credentials "srv" sampleDb "alice" "github").1 =
      some sampleCreds :=
  (get_user_credentials_spec "srv" sampleDb "alice" "github" (by decide)
      sampleCreds).mpr
    ⟨⟨"u1", "github", encrypt_credentials "srv" "u1" sampleCreds, true, true,
      ["delete_repo"]⟩,
     by decide, by decide, by decide, by decide, by decide, by decide⟩

/-- C7: on a stored record whose decrypted payload carries an "error" key
and no "access_token" key, `cleanup_invalid_credentials` returns true and
flips `is_authenticated` to false without deleting the record (it is still
found under the same (user, tool) key), after which `get_user_credentials`
returns `None`; on a record whose payload does not match that shape it
returns false and leaves the store unchanged. -/
theorem cleanup_invalid_credentials_spec (encryptionKey : String) (db : Db)
    (uid tool : String) (hnd : NoDupKeys db.auths) (u : UserRow)
    (hUser : db.users.find? (fun x => x.externalId == uid) = some u)
    (r : AuthRow)
    (hFind : db.auths.find? (anyAuthFilter u.id tool) = some r) :
    (∀ creds,
       decrypt_credentials encryptionKey u.id r.encryptedCredentials =
           some creds →
       hasKey creds "error" = true → hasKey creds "access_token" = false →
       (cleanup_invalid_credentials encryptionKey db uid tool).1 = true ∧
       (cleanup_invalid_credentials encryptionKey db uid tool).2.auths.find?
           (anyAuthFilter u.id tool) =
         some { r with isAuthenticated := false } ∧
       (get_user_credentials encryptionKey
           (cleanup_invalid_credentials encryptionKey db uid tool).2 uid
           tool).1 = none) ∧
    (∀ creds,
       decrypt_credentials encryptionKey u.id r.encryptedCredentials =
           some creds →
       (hasKey creds "error" && !(hasKey creds "access_token")) = false →
       cleanup_invalid_credentials encryptionKey db uid tool = (false, db)) := by
  have hgoc := goc_of_found db uid u hUser
  constructor
  · intro creds hdec he ha
    have hcond : (hasKey creds "error" && !(hasKey creds "access_token"))
        = true := by rw [he, ha]; rfl
    have hclean : cleanup_invalid_credentials encryptionKey db uid tool =
        (true,
         { db with auths := (updateFirst (anyAuthFilter u.id tool)
             (fun a => { a with isAuthenticated := false }) db.auths) }) := by
      unfold cleanup_invalid_credentials
      rw [hgoc]
      dsimp only
      rw [hFind]
      dsimp only
      rw [hdec]
      dsimp only
      rw [hcond]
      simp
    refine ⟨by rw [hclean], ?_, ?_⟩
    · rw [hclean]
      dsimp only
      rw [find?_updateFirst_pres (anyAuthFilter u.id tool)
        (fun a => { a with isAuthenticated := false }) db.auths
        (fun a => rfl), hFind]
      rfl
    · rw [hclean]
      unfold get_user_credentials
      dsimp only
      have hUser2 : ({ db with auths := (updateFirst (anyAuthFilter u.id tool)
            (fun a => { a with isAuthenticated := false }) db.auths) } :
          Db).users.find? (fun x => x.externalId == uid) = some u := hUser
      rw [goc_of_found _ uid u hUser2]
      dsimp only
      rw [find?_active_after_flip u.id tool db.auths hnd]
  · intro creds hdec hcond
    unfold cleanup_invalid_credentials
    rw [hgoc]
    dsimp only
    rw [hFind]
    dsimp only
    rw [hdec]
    dsimp only
    rw [hcond]
    simp

/-- Witness for C7: a persisted `bad_verification_code` envelope is
deactivated in place and becomes invisible to `get_user_credentials`. -/
theorem cleanup_invalid_credentials_spec_witness :
    (cleanup_invalid_credentials "srv" badDb "alice" "github").1 = true ∧
    (cleanup_invalid_credentials "srv" badDb "alice" "github").2.auths.find?
        (anyAuthFilter "u1" "github") =
      some ⟨"u1", "github", encrypt_credentials "srv" "u1" badCreds, false,
            true, []⟩ ∧
    (get_user_credentials "srv"
        (cleanup_invalid_credentials "srv" badDb "alice" "github").2
        "alice" "github").1 = none :=
  (cleanup_invalid_credentials_spec "srv" badDb "alice" "github" (by decide)
      ⟨"u1", "alice"⟩ (by decide)
      ⟨"u1", "github", encrypt_credentials "srv" "u1" badCreds, true, true, []⟩
      (by decide)).1
    badCreds (by decide) (by decide) (by decide)

/-- C10: every credential operation taking a user id — including the
read-only `get_user_credentials` and `get_user_tools` — first runs
`get_or_create_user`, so each one leaves the users table exactly as
`get_or_create_user` does: the table only ever grows by a suffix, it
afterwards contains a row for the given external id (inserted as a side
effect when the id was unseen), and no operation deletes a User row. -/
theorem credential_ops_create_user_never_delete (encryptionKey : String)
    (db : Db) (uid tool : String) (active : Bool) :
    ((get_user_credentials encryptionKey db uid tool).2.users =
        ((get_or_create_user db uid).2).users ∧
      (get_user_tools db uid).2.users = ((get_or_create_user db uid).2).users ∧
      (set_tool_active_status db uid tool active).2.users =
        ((get_or_create_user db uid).2).users ∧
      (disconnect_tool db uid tool).2.users =
        ((get_or_create_user db uid).2).users) ∧
    (∃ t, ((get_or_create_user db uid).2).users = db.users ++ t) ∧
    (∃ r ∈ ((get_or_create_user db uid).2).users, r.externalId = uid) ∧
    ((∀ r ∈ db.users, r.externalId ≠ uid) →
      ((get_or_create_user db uid).2).users =
        db.users ++ [⟨freshUserId db, uid⟩]) := by
  refine ⟨⟨?_, ?_, ?_, ?_⟩, ?_, ?_, ?_⟩
  · unfold get_user_credentials
    dsimp only
    split
    · rfl
    · split <;> rfl
  · unfold get_user_tools
    dsimp only
  · unfold set_tool_active_status
    dsimp only
    split <;> rfl
  · unfold disconnect_tool
    dsimp only
    split <;> rfl
  · rcases h : db.users.find? (fun x => x.externalId == uid) with _ | u
    · exact ⟨[⟨freshUserId db, uid⟩], by simp [get_or_create_user, h]⟩
    · exact ⟨[], by simp [get_or_create_user, h]⟩
  · rcases h : db.users.find? (fun x => x.externalId == uid) with _ | u
    · exact ⟨⟨freshUserId db, uid⟩, by simp [get_or_create_user, h], rfl⟩
    · exact ⟨u, by simp [get_or_create_user, h, List.mem_of_find?_eq_some h],
        by simpa using List.find?_some h⟩
  · intro hall
    have h : db.users.find? (fun x => x.externalId == uid) = none := by
      rw [List.find?_eq_none]
      intro a ha
      simpa using hall a ha
    simp [get_or_create_user, h]

/-- Witness for C10: a read (`get_user_tools`) on an empty store inserts the
unseen user as a side effect. -/
theorem credential_ops_create_user_never_delete_witness :
    (get_user_tools { users := [], auths := [] } "alice").2.users =
      [⟨"uid-0", "alice"⟩] := by
  have h := credential_ops_create_user_never_delete "srv"
    { users := [], auths := [] } "alice" "github" true
  have h2 := h.2.2.2 (by intro r hr; cases hr)
  rw [h.1.2.1, h2]
  rfl

/-- C9 counterexample: in the sample store the action "delete_repo" is in
alice's GitHub `disabled_actions` set, yet `execute_tool` for exactly that
action spawns the child process and returns its successful result — the
disabled action is not excluded from execution. -/
theorem execute_tool_runs_disabled_action :
    sampleDb.auths.find? (anyAuthFilter "u1" "github") =
      some ⟨"u1", "github", encrypt_credentials "srv" "u1" sampleCreds, true,
            true, ["delete_repo"]⟩ ∧
    (execute_tool "srv" ⟨10, 30⟩ ⟨0, 0⟩ sampleDb "alice" "github" "delete_repo"
        true (.exitsOkJson [("deleted", JVal.bool true)])).effects.spawnedChild
      = true ∧
    (execute_tool "srv" ⟨10, 30⟩ ⟨0, 0⟩ sampleDb "alice" "github" "delete_repo"
        true (.exitsOkJson [("deleted", JVal.bool true)])).result =
      .ok { success := true, result := some [("deleted", JVal.bool true)],
            resultText := none, error := none, toolName := "github",
            action := "delete_repo" } := by
  refine ⟨rfl, rfl, rfl⟩

/-- C9 as amended: `execute_tool` never consults `disabled_actions` — once
past the busy check, with a resolved credential that passes the
error-envelope check and an existing script, it spawns the child for ANY
action name, disabled ones included; disabling an action only removes it
from the advertised action list of the openai-tools endpoint. -/
theorem disabled_actions_listing_only (encryptionKey : String)
    (cfg : LoadConfig) (st : DispatcherState) (db : Db)
    (uid tool act : String) (child : ChildOutcome) (creds : JObj)
    (hq : st.queued < cfg.maxQueueSize)
    (hcred : (get_user_credentials encryptionKey db uid tool).1 = some creds)
    (hok : (hasKey creds "error" && !(hasKey creds "access_token")) = false) :
    (execute_tool encryptionKey cfg st db uid tool act true
        child).effects.spawnedChild = true ∧
    ∀ (disabledActions actionNames : List String) (a : String),
      a ∈ disabledActions → a ∉ openaiActionNames disabledActions actionNames := by
  constructor
  · have hle : ¬ cfg.maxQueueSize ≤ st.queued := Nat.not_le.mpr hq
    unfold execute_tool
    rw [if_neg hle]
    dsimp only
    rw [hcred]
    dsimp only
    rw [hok]
    rfl
  · intro das acts a ha
    simp [openaiActionNames, List.mem_filter, ha]

/-- Witness for the amended C9: the disabled "delete_repo" still spawns a
child when invoked, while the openai-tools listing omits it. -/
theorem disabled_actions_listing_only_witness :
    (execute_tool "srv" ⟨10, 30⟩ ⟨0, 0⟩ sampleDb "alice" "github" "delete_repo"
        true (.exitsOkRaw "ok")).effects.spawnedChild = true ∧
    "delete_repo" ∉
      openaiActionNames ["delete_repo"] ["list_repos", "delete_repo"] := by
  have h := disabled_actions_listing_only "srv" ⟨10, 30⟩ ⟨0, 0⟩ sampleDb
    "alice" "github" "delete_repo" (.exitsOkRaw "ok") sampleCreds
    (by decide) (by decide) (by decide)
  exact ⟨h.1, h.2 ["delete_repo"] ["list_repos", "delete_repo"] "delete_repo"
    (by decide)⟩

end Modulex
